import Mathlib

/-!
Shallow embedding of the Gemini adapter core
(`gpt_engineer/core/gemini_ai.py`, class `GeminiAI`): content
normalization, conversation translation, model selection, the generation
invoker with its error fallback, the secondary-asset trigger, and the
usage-accounting ledger.  External effects (local file reads, network
fetches, the provider call) are modelled as explicit oracle functions, so
every definition is executable.
-/

namespace Ananta

/-- Raw bytes read from a file or a network response body. -/
abbrev Bytes := List Nat

/-- A structured content record (a Python dict used as `StructuredContent`):
optional `"text"`, `"images"` and `"videos"` fields.  An `Option` field is
`none` exactly when the corresponding key is absent from the dict. -/
structure StructuredDict where
  text : Option String
  images : Option (List String)
  videos : Option (List String)
deriving DecidableEq

/-- One item of a `ContentPartList`.  `typed ty txt url` models a dict that
has a `"type"` key with value `ty`; `txt` is its `"text"` field when present
and `url` is the result of `item.get("image_url", dict()).get("url")`.
`untyped s` models any other item (a non-dict, or a dict without a `"type"`
key); `s` is its textual representation `str(item)`. -/
inductive ContentItem where
  | typed (ty : String) (txt : Option String) (url : Option String)
  | untyped (s : String)
deriving DecidableEq

/-- The polymorphic content value carried by a message: a plain string, a
structured dict, or a list of typed items. -/
inductive Content where
  | str (s : String)
  | dict (d : StructuredDict)
  | list (items : List ContentItem)
deriving DecidableEq

/-- A LangChain message: `SystemMessage`, `HumanMessage` or `AIMessage`.
System and assistant contents are plain strings in this adapter; human
content is polymorphic. -/
inductive Message where
  | system (content : String)
  | human (content : Content)
  | ai (content : String)
deriving DecidableEq

/-- One element of a Gemini `parts` array.  `str` is a Python `str` part;
`blob` is a `{"mime_type": ..., "data": ...}` dict; `textDict` is a
`{"text": ...}` placeholder dict (note: NOT a Python `str`, so the
system-prepend step skips it); `rawDict` is an unprocessed structured dict
passed through unchanged. -/
inductive Part where
  | str (s : String)
  | blob (mime : String) (data : Bytes)
  | textDict (s : String)
  | rawDict (d : StructuredDict)
deriving DecidableEq

/-- A translated provider turn: `{"role": ..., "parts": [...]}`. -/
structure GeminiMsg where
  role : String
  parts : List Part
deriving DecidableEq

/-- Oracle for local file reads: `some bytes` when the path exists and is
readable, `none` when the file is missing or reading raises. -/
abbrev FileSys := String → Option Bytes

/-- Oracle for network fetches: `some body` on a 2xx response, `none` when
the request raises or `raise_for_status` fires. -/
abbrev Net := String → Option Bytes

/-- Boolean substring containment, modelling Python's `needle in hay`. -/
def containsSubstr (hay needle : String) : Bool :=
  hay.data.tails.any (fun t => needle.data.isPrefixOf t)

/-- Boolean prefix test on strings via their character lists. -/
def startsWithB (s pre : String) : Bool :=
  pre.data.isPrefixOf s.data

/-- ASCII lowercasing, modelling Python's `str.lower()`. -/
def strLower (s : String) : String :=
  String.mk (s.data.map Char.toLower)

/-- Models `Path(p).suffix` (pathlib): the extension of the final path
component, from its last dot, empty when the dot is leading or trailing. -/
def pathSuffix (p : String) : String :=
  let name := (p.splitOn "/").getLastD ""
  let cs := name.data
  match ((List.range cs.length).filter (fun i => cs.getD i ' ' == '.')).getLast? with
  | some i => if 0 < i ∧ i + 1 < cs.length then String.mk (cs.drop i) else ""
  | none => ""

/-- Models `GeminiAI._load_image_from_url`: fetch the URL; on success return a JPEG
blob, on any failure (including a `None` url, modelled by `none`) return the
`[Image URL: ...]` placeholder dict.  Python renders `None` as `"None"` in
the f-string. -/
def loadImageFromUrl (net : Net) (imageUrl : Option String) : Part :=
  match imageUrl with
  | none => Part.textDict "[Image URL: None]"
  | some u =>
    match net u with
    | some data => Part.blob "image/jpeg" data
    | none => Part.textDict ("[Image URL: " ++ u ++ "]")

/-- Models `GeminiAI._load_image`: delegate http(s) references to the URL loader;
otherwise read the local file and tag it with a mime type taken from the
path extension; on a missing or unreadable file return the
`[Image: ...]` placeholder dict. -/
def loadImage (fs : FileSys) (net : Net) (imagePath : String) : Part :=
  if startsWithB imagePath "http://" || startsWithB imagePath "https://" then
    loadImageFromUrl net (some imagePath)
  else
    match fs imagePath with
    | some data => Part.blob ("image/" ++ (pathSuffix imagePath).drop 1) data
    | none => Part.textDict ("[Image: " ++ imagePath ++ "]")

/-- Models `GeminiAI._load_video`: read the local file and tag it with a mime type
from the extension; on failure return the `[Video: ...]` placeholder. -/
def loadVideo (fs : FileSys) (videoPath : String) : Part :=
  match fs videoPath with
  | some data => Part.blob ("video/" ++ (pathSuffix videoPath).drop 1) data
  | none => Part.textDict ("[Video: " ++ videoPath ++ "]")

/-- The normalization result of `_process_multimodal_content`: a plain
string, a list of parts, or the original dict (returned when a structured
dict produced no parts). -/
inductive NormResult where
  | str (s : String)
  | parts (ps : List Part)
  | dict (d : StructuredDict)
deriving DecidableEq

/-- The per-item step of the list branch of
`GeminiAI._process_multimodal_content`.  A `"text"` item yields its text
(default `""`); an `"image_url"` item yields the resolved URL part; a dict
item with any other `"type"` value matches neither inner branch and the
`else` belongs to the outer `isinstance` test, so NOTHING is appended for
it (`none`); a non-dict or type-less item yields `str(item)`. -/
def processItem (net : Net) : ContentItem → Option Part
  | .typed ty txt url =>
    if ty = "text" then some (Part.str (txt.getD ""))
    else if ty = "image_url" then some (loadImageFromUrl net url)
    else none
  | .untyped s => some (Part.str s)

/-- Models `GeminiAI._process_multimodal_content`: strings pass through; a
structured dict yields its text part (if any) followed by its image blobs
then its video blobs, or the original dict when that list is empty
(`parts if parts else content`); a list is processed item-wise. -/
def processMultimodalContent (fs : FileSys) (net : Net) : Content → NormResult
  | .str s => .str s
  | .dict d =>
    let parts :=
      (match d.text with | some t => [Part.str t] | none => []) ++
      ((d.images.getD []).map (loadImage fs net)) ++
      ((d.videos.getD []).map (loadVideo fs))
    if parts.isEmpty then .dict d else .parts parts
  | .list items => .parts (items.filterMap (processItem net))

/-- Wraps a normalization result into a `parts` array:
`content if isinstance(content, list) else [content]`. -/
def toPartsList : NormResult → List Part
  | .str s => [Part.str s]
  | .parts ps => ps
  | .dict d => [Part.rawDict d]

/-- The main translation pass of `_convert_messages_to_gemini`: system
turns are skipped, human turns become `"user"` entries with normalized
parts, assistant turns become `"model"` entries with a single text part. -/
def msgToGemini (fs : FileSys) (net : Net) : Message → Option GeminiMsg
  | .system _ => none
  | .human c => some ⟨"user", toPartsList (processMultimodalContent fs net c)⟩
  | .ai s => some ⟨"model", [Part.str s]⟩

/-- The content of a message when it is a system turn. -/
def systemContent : Message → Option String
  | .system s => some s
  | _ => none

/-- Models `isinstance(msg, SystemMessage)`. -/
def isSystemMsg : Message → Bool
  | .system _ => true
  | _ => false

/-- The system-folding step at the end of `_convert_messages_to_gemini`:
walk to the first `"user"` entry; if its `parts[0]` is a Python `str`,
prepend `sys` to it; if it is any other part, change nothing; if its parts
array is EMPTY, the source raises `IndexError` (modelled by `none`).
Entries before the first user entry are kept unchanged. -/
def prependSystemToFirstUser (sys : String) : List GeminiMsg → Option (List GeminiMsg)
  | [] => some []
  | m :: ms =>
    if m.role == "user" then
      match m.parts with
      | [] => none
      | Part.str s :: rest => some ({ role := m.role, parts := Part.str (sys ++ s) :: rest } :: ms)
      | _ :: _ => some (m :: ms)
    else
      match prependSystemToFirstUser sys ms with
      | none => none
      | some ms2 => some (m :: ms2)

/-- Models `GeminiAI._convert_messages_to_gemini`: run the main pass, then, when a
system turn exists and the translated list is nonempty, fold
`"System: {S}\n\nUser: "` onto the first user entry's first part.
`none` models the `IndexError` raised when that entry has no parts. -/
def convertMessagesToGemini (fs : FileSys) (net : Net) (messages : List Message) :
    Option (List GeminiMsg) :=
  let geminiMessages := messages.filterMap (msgToGemini fs net)
  match messages.findSome? systemContent with
  | none => some geminiMessages
  | some s =>
    if geminiMessages.isEmpty then some geminiMessages
    else prependSystemToFirstUser ("System: " ++ s ++ "\n\nUser: ") geminiMessages

/-- The fixed phrase set of `GeminiAI._should_generate_images`. -/
def imageKeywords : List String :=
  ["generate image", "create image", "make image", "draw",
   "visualize", "diagram", "chart", "graph", "mockup",
   "ui design", "logo", "icon", "illustration"]

/-- The fixed phrase set of `GeminiAI._should_generate_videos`. -/
def videoKeywords : List String :=
  ["generate video", "create video", "make video", "animation",
   "demo video", "tutorial video", "walkthrough", "presentation"]

/-- Models `GeminiAI._should_generate_images`: case-insensitive containment of any
image keyword. -/
def shouldGenerateImages (response : String) : Bool :=
  imageKeywords.any (fun k => containsSubstr (strLower response) k)

/-- Models `GeminiAI._should_generate_videos`: case-insensitive containment of any
video keyword. -/
def shouldGenerateVideos (response : String) : Bool :=
  videoKeywords.any (fun k => containsSubstr (strLower response) k)

/-- Models `GeminiAI.generate_images_from_response`: the source is a placeholder
that always returns an empty list of image paths (its directory-creation
side effect is irrelevant to the returned value). -/
def generateImagesFromResponse (_response _stepName : String) : List String := []

/-- Models `GeminiAI.generate_videos_from_response`: the source placeholder always
returns an empty list of video paths. -/
def generateVideosFromResponse (_response _stepName : String) : List String := []

/-- An asset-producing subroutine: response text and step label in, a list
of generated file paths out. -/
abbrev Generator := String → String → List String

/-- Models `GeminiAI._handle_generation_requests`, parameterized by the two
asset-producing subroutines.  Each trigger tests the ORIGINAL response for
its keywords, and appends its section only when the subroutine returned a
nonempty path list (`if generated_images:`). -/
def handleGenerationRequests (enableImageGeneration enableVideoGeneration : Bool)
    (genImages genVideos : Generator) (response stepName : String) : String :=
  let enhanced1 :=
    if enableImageGeneration && shouldGenerateImages response then
      let generatedImages := genImages response stepName
      if generatedImages.isEmpty then response
      else generatedImages.foldl
        (fun acc p => acc ++ "![Generated Image](" ++ p ++ ")\n")
        (response ++ "\n\n## Generated Images\n")
    else response
  if enableVideoGeneration && shouldGenerateVideos response then
    let generatedVideos := genVideos response stepName
    if generatedVideos.isEmpty then enhanced1
    else generatedVideos.foldl
      (fun acc p => acc ++ "[Generated Video](" ++ p ++ ")\n")
      (enhanced1 ++ "\n\n## Generated Videos\n")
  else enhanced1

/-- The three model endpoints of the adapter:
`self.text_model`, `self.vision_model`, `self.multimodal_model`. -/
inductive ModelChoice where
  | text
  | vision
  | multimodal
deriving DecidableEq

/-- Value of `msg.content` as a content value (system and assistant contents are
plain strings). -/
def contentOf : Message → Content
  | .system s => .str s
  | .human c => c
  | .ai s => .str s

/-- Models `isinstance(msg.content, (dict, list))`. -/
def isDictOrList : Content → Bool
  | .str _ => false
  | .dict _ => true
  | .list _ => true

/-- Models `GeminiAI._contains_visual_content`: a dict with an `"images"` or
`"videos"` key, or a list with an item whose `"type"` is `"image_url"`,
`"image"` or `"video"`. -/
def containsVisualContent : Content → Bool
  | .dict d => d.images.isSome || d.videos.isSome
  | .list items => items.any (fun it =>
      match it with
      | .typed ty _ _ => ty == "image_url" || ty == "image" || ty == "video"
      | .untyped _ => false)
  | .str _ => false

/-- Models `GeminiAI._select_model`: multimodal/vision when any message carries
visual content or the multimodal flag is set ("1.5" in the configured model
name picks the multimodal endpoint), text model otherwise. -/
def selectModel (messages : List Message) (enableMultimodal : Bool)
    (modelName : String) : ModelChoice :=
  let hasImages := messages.any (fun m =>
    isDictOrList (contentOf m) && containsVisualContent (contentOf m))
  if hasImages || enableMultimodal then
    if containsSubstr modelName "1.5" then .multimodal else .vision
  else .text

/-- One entry of the `TokenUsageLog` ledger, as passed to `update_log`. -/
structure UsageEntry where
  stepName : String
  messages : List Message
  answer : String
deriving DecidableEq

/-- The provider call `model.generate_content(...).text`: given the selected
model and the translated turns, returns the response text or the message of
the exception it raised. -/
abbrev Provider := ModelChoice → List GeminiMsg → Except String String

/-- The fallback text built in the `except` branch of `GeminiAI.next`. -/
def fallbackResponse (e : String) : String :=
  "Error with Gemini API: " ++ e ++ ". Please try again."

/-- Models `GeminiAI.next`: append the optional prompt (skipped when falsy), build
the Gemini-format turns (`none` models the `IndexError` escaping from the
translation, which runs before the `try` block), select the model, call the
provider; on success run the secondary-asset trigger, record a usage entry
and append the assistant turn; on a provider error append the fallback
assistant turn and leave the ledger untouched. -/
def geminiNext (fs : FileSys) (net : Net) (provider : Provider)
    (enableImageGeneration enableVideoGeneration enableMultimodal : Bool)
    (modelName : String) (messages : List Message) (prompt : Option String)
    (stepName : String) (usageLog : List UsageEntry) :
    Option (List Message × List UsageEntry) :=
  let messages :=
    match prompt with
    | some p => if p = "" then messages else messages ++ [Message.human (.str p)]
    | none => messages
  match convertMessagesToGemini fs net messages with
  | none => none
  | some geminiMessages =>
    let model := selectModel messages enableMultimodal modelName
    match provider model geminiMessages with
    | .ok responseContent =>
      let enhanced := handleGenerationRequests enableImageGeneration enableVideoGeneration
        generateImagesFromResponse generateVideosFromResponse responseContent stepName
      some (messages ++ [Message.ai enhanced],
            usageLog ++ [⟨stepName, messages, enhanced⟩])
    | .error e =>
      some (messages ++ [Message.ai (fallbackResponse e)], usageLog)

/-- The file-system oracle with no readable files. -/
def fsNone : FileSys := fun _ => none

/-- The network oracle on which every fetch fails. -/
def netNone : Net := fun _ => none

/-- A provider whose every call raises (models "model unavailable"). -/
def failingProvider : Provider := fun _ _ => .error "model unavailable"

/-- A provider whose every call succeeds with a fixed response text. -/
def okProvider : Provider := fun _ _ => .ok "All done"

/-- The first `"user"` entry's parts array of a translated turn list. -/
def firstUserParts (gms : List GeminiMsg) : Option (List Part) :=
  (gms.find? (fun m => m.role == "user")).map GeminiMsg.parts

/-- Whether a textual part begins with the folded-system marker. -/
def partMentionsSystem : Part → Bool
  | .str s => startsWithB s "System: "
  | .textDict s => startsWithB s "System: "
  | _ => false

/-! ## Helper lemmas -/

/-- A string contains every needle that is an infix of its character list. -/
lemma containsSubstr_of_infix {hay needle : String}
    (h : needle.data <:+: hay.data) : containsSubstr hay needle = true := by
  rcases h with ⟨s, t, hst⟩
  unfold containsSubstr
  rw [List.any_eq_true]
  refine ⟨needle.data ++ t, ?_, ?_⟩
  · rw [List.mem_tails]
    exact ⟨s, by rw [← List.append_assoc, hst]⟩
  · rw [List.isPrefixOf_iff_prefix]
    exact ⟨t, rfl⟩

/-- Folding markdown references over a path list only ever appends to the
accumulator. -/
lemma foldl_markdown_extract (a b : String) (l : List String) :
    ∀ init : String,
      ∃ t, l.foldl (fun acc p => acc ++ a ++ p ++ b) init = init ++ t := by
  induction l with
  | nil => intro init; exact ⟨"", by simp⟩
  | cons p ps ih =>
    intro init
    rcases ih (init ++ a ++ p ++ b) with ⟨t, ht⟩
    refine ⟨a ++ p ++ b ++ t, ?_⟩
    rw [List.foldl_cons, ht]
    simp [String.append_assoc]

/-! ## Claim theorems -/

/-- C9: for every response text, step label and flag setting, the text
returned by the secondary-asset trigger has the original response as a
prefix — augmentation only appends. -/
theorem handle_output_extends_response (eI eV : Bool) (gI gV : Generator)
    (response stepName : String) :
    ∃ t, handleGenerationRequests eI eV gI gV response stepName = response ++ t := by
  simp only [handleGenerationRequests]
  have h1 : ∃ t1,
      (if eI && shouldGenerateImages response then
        if (gI response stepName).isEmpty then response
        else (gI response stepName).foldl
          (fun acc p => acc ++ "![Generated Image](" ++ p ++ ")\n")
          (response ++ "\n\n## Generated Images\n")
      else response) = response ++ t1 := by
    split
    · split
      · exact ⟨"", by simp⟩
      · rcases foldl_markdown_extract "![Generated Image](" ")\n"
          (gI response stepName) (response ++ "\n\n## Generated Images\n") with ⟨t, ht⟩
        exact ⟨"\n\n## Generated Images\n" ++ t, by rw [ht, String.append_assoc]⟩
    · exact ⟨"", by simp⟩
  rcases h1 with ⟨t1, ht1⟩
  rw [ht1]
  split
  · split
    · exact ⟨t1, rfl⟩
    · rcases foldl_markdown_extract "[Generated Video](" ")\n"
        (gV response stepName) (response ++ t1 ++ "\n\n## Generated Videos\n") with ⟨t, ht⟩
      exact ⟨t1 ++ "\n\n## Generated Videos\n" ++ t,
        by rw [ht]; simp [String.append_assoc]⟩
  · exact ⟨t1, rfl⟩

/-- C7: a response containing no image-trigger phrase and no video-trigger
phrase passes through the secondary-asset trigger unchanged, for every
setting of the generation flags. -/
theorem no_trigger_leaves_response_unchanged (eI eV : Bool) (gI gV : Generator)
    (response stepName : String)
    (h1 : shouldGenerateImages response = false)
    (h2 : shouldGenerateVideos response = false) :
    handleGenerationRequests eI eV gI gV response stepName = response := by
  simp [handleGenerationRequests, h1, h2]

/-- C7 witness: a keyword-free response is returned byte-for-byte even with
both generation flags on and asset subroutines that would produce paths. -/
theorem no_trigger_witness :
    shouldGenerateImages "Hello" = false ∧ shouldGenerateVideos "Hello" = false ∧
    handleGenerationRequests true true (fun _ _ => ["x.png"]) (fun _ _ => ["y.mp4"])
      "Hello" "step" = "Hello" :=
  ⟨by decide, by decide,
   no_trigger_leaves_response_unchanged true true (fun _ _ => ["x.png"])
     (fun _ _ => ["y.mp4"]) "Hello" "step" (by decide) (by decide)⟩

/-- C10: a list item whose discriminator is "text" but which lacks a "text"
field contributes exactly one empty-string text part, in place, without
failing. -/
theorem normalize_typed_text_defaults_empty (fs : FileSys) (net : Net)
    (u : Option String) (pre post : List ContentItem) :
    processMultimodalContent fs net
        (.list (pre ++ ContentItem.typed "text" none u :: post)) =
      .parts (pre.filterMap (processItem net) ++
        Part.str "" :: post.filterMap (processItem net)) := by
  simp [processMultimodalContent, List.filterMap_append, List.filterMap_cons, processItem]

/-- The spec's §4.3 selection rule, stated in its own words: any turn whose
content structurally contains visual indicators (a structured record with
an images or videos field, or a typed item whose discriminator is
"image_url"/"image"/"video"), or the multimodal flag, selects the
multimodal endpoint when the model name contains "1.5" and the vision
endpoint otherwise; else the text endpoint. -/
def specVisualIndicator : Content → Bool
  | .dict d => d.images.isSome || d.videos.isSome
  | .list items => items.any (fun it =>
      match it with
      | .typed ty _ _ => ty == "image_url" || ty == "image" || ty == "video"
      | .untyped _ => false)
  | .str _ => false

/-- The selection rule exactly as the spec phrases it, for comparison with
the source's `selectModel`. -/
def specSelectRule (messages : List Message) (multimodalEnabled : Bool)
    (modelName : String) : ModelChoice :=
  if messages.any (fun m => specVisualIndicator (contentOf m)) || multimodalEnabled then
    if containsSubstr modelName "1.5" then .multimodal else .vision
  else .text

/-- C5: the model selector implements exactly the spec's rule, and on the
spec's three concrete scenarios picks the multimodal, vision and text
endpoints respectively. -/
theorem selectModel_matches_spec_rule :
    (∀ (messages : List Message) (mm : Bool) (name : String),
        selectModel messages mm name = specSelectRule messages mm name) ∧
    selectModel [Message.human (Content.dict ⟨none, some ["a.png"], none⟩)]
        false "gemini-1.5-pro" = ModelChoice.multimodal ∧
    selectModel [Message.human (Content.dict ⟨none, some ["a.png"], none⟩)]
        false "gemini-pro" = ModelChoice.vision ∧
    selectModel [Message.human (Content.str "hi")] false "gemini-pro" =
        ModelChoice.text := by
  refine ⟨?_, by decide, by decide, by decide⟩
  intro messages mm name
  have h : ∀ c, (isDictOrList c && containsVisualContent c) = specVisualIndicator c := by
    intro c; cases c <;> rfl
  simp only [selectModel, specSelectRule, h]

/-- C3 counterexample: a `ContentPartList` item whose discriminator is
"video" yields NO output part (the dangling `else` binds to the outer
`isinstance` test), so the output is shorter than the input. -/
theorem normalize_drops_unhandled_typed_item :
    processMultimodalContent fsNone netNone
        (Content.list [ContentItem.typed "video" none none]) = NormResult.parts [] ∧
    ([ContentItem.typed "video" none none] : List ContentItem).length = 1 :=
  ⟨rfl, rfl⟩

/-- C3 (amended): when every item of a `ContentPartList` is a "text" item,
an "image_url" item, or an item without a "type" discriminator, the output
part sequence has the same length and order as the input — each such item
yields exactly one part; items with any other discriminator are dropped. -/
theorem normalize_preserves_kept_items (fs : FileSys) (net : Net)
    (items : List ContentItem)
    (h : ∀ it ∈ items, (processItem net it).isSome) :
    processMultimodalContent fs net (.list items) =
      .parts (items.map (fun it => (processItem net it).getD (Part.str ""))) ∧
    (items.map (fun it => (processItem net it).getD (Part.str ""))).length =
      items.length := by
  refine ⟨?_, by simp⟩
  simp only [processMultimodalContent]
  congr 1
  induction items with
  | nil => rfl
  | cons a l ih =>
    rcases Option.isSome_iff_exists.mp (h a (by simp)) with ⟨p, hp⟩
    simp [List.filterMap_cons, hp, ih (fun it hit => h it (by simp [hit]))]

/-- C3 witness: a three-item list of the kept shapes normalizes to three
parts in input order. -/
theorem normalize_preserves_kept_items_witness :
    processMultimodalContent fsNone netNone
        (.list [ContentItem.typed "text" (some "hi") none, ContentItem.untyped "42",
                ContentItem.typed "image_url" none (some "http://x")]) =
      .parts ([ContentItem.typed "text" (some "hi") none, ContentItem.untyped "42",
               ContentItem.typed "image_url" none (some "http://x")].map
        (fun it => (processItem netNone it).getD (Part.str ""))) ∧
    ([ContentItem.typed "text" (some "hi") none, ContentItem.untyped "42",
      ContentItem.typed "image_url" none (some "http://x")].map
        (fun it => (processItem netNone it).getD (Part.str ""))).length =
      ([ContentItem.typed "text" (some "hi") none, ContentItem.untyped "42",
        ContentItem.typed "image_url" none (some "http://x")] : List ContentItem).length :=
  normalize_preserves_kept_items fsNone netNone _ (by decide)

/-- C4 counterexample: a failed network fetch yields the placeholder
`[Image URL: ...]`, which is neither of the claimed forms `[Image: ref]`
and `[Video: ref]`. -/
theorem url_failure_placeholder_form :
    loadImageFromUrl netNone (some "http://host/a.jpg") =
      Part.textDict "[Image URL: http://host/a.jpg]" ∧
    "[Image URL: http://host/a.jpg]" ≠ "[Image: " ++ "http://host/a.jpg" ++ "]" ∧
    "[Image URL: http://host/a.jpg]" ≠ "[Video: " ++ "http://host/a.jpg" ++ "]" :=
  ⟨rfl, by decide, by decide⟩

/-- C4 (amended): every unresolvable media reference degrades, without
raising, to a placeholder text part containing the literal reference:
`[Image: ref]` and `[Video: ref]` for local paths, and `[Image URL: ref]`
for a failed network fetch. -/
theorem media_failure_returns_placeholder (fs : FileSys) (net : Net) (p u : String)
    (hfs : fs p = none) (hnet : net u = none)
    (h1 : startsWithB p "http://" = false) (h2 : startsWithB p "https://" = false) :
    loadImage fs net p = Part.textDict ("[Image: " ++ p ++ "]") ∧
    loadVideo fs p = Part.textDict ("[Video: " ++ p ++ "]") ∧
    loadImageFromUrl net (some u) = Part.textDict ("[Image URL: " ++ u ++ "]") ∧
    containsSubstr ("[Image: " ++ p ++ "]") p = true ∧
    containsSubstr ("[Video: " ++ p ++ "]") p = true ∧
    containsSubstr ("[Image URL: " ++ u ++ "]") u = true := by
  refine ⟨?_, ?_, ?_, ?_, ?_, ?_⟩
  · simp [loadImage, h1, h2, hfs]
  · simp [loadVideo, hfs]
  · simp [loadImageFromUrl, hnet]
  · exact containsSubstr_of_infix ⟨"[Image: ".data, "]".data, by simp⟩
  · exact containsSubstr_of_infix ⟨"[Video: ".data, "]".data, by simp⟩
  · exact containsSubstr_of_infix ⟨"[Image URL: ".data, "]".data, by simp⟩

/-- C4 witness: a missing local image, a missing local video, and a failed
fetch all produce their placeholder parts containing the reference. -/
theorem media_failure_returns_placeholder_witness :
    loadImage fsNone netNone "a.png" = Part.textDict ("[Image: " ++ "a.png" ++ "]") ∧
    loadVideo fsNone "a.png" = Part.textDict ("[Video: " ++ "a.png" ++ "]") ∧
    loadImageFromUrl netNone (some "http://host/a.jpg") =
      Part.textDict ("[Image URL: " ++ "http://host/a.jpg" ++ "]") ∧
    containsSubstr ("[Image: " ++ "a.png" ++ "]") "a.png" = true ∧
    containsSubstr ("[Video: " ++ "a.png" ++ "]") "a.png" = true ∧
    containsSubstr ("[Image URL: " ++ "http://host/a.jpg" ++ "]") "http://host/a.jpg" = true :=
  media_failure_returns_placeholder fsNone netNone "a.png" "http://host/a.jpg"
    rfl rfl (by decide) (by decide)

/-- C6 counterexample: the spec's own trigger scenario — response text
"Here is a diagram of the architecture", image generation enabled — with
the repository's asset subroutine (which returns zero paths) leaves the
text unchanged: no "## Generated Images" section is appended when zero
assets are produced, because the source guards the append with
`if generated_images:`. -/
theorem image_trigger_zero_assets_unchanged :
    shouldGenerateImages "Here is a diagram of the architecture" = true ∧
    handleGenerationRequests true true generateImagesFromResponse
        generateVideosFromResponse "Here is a diagram of the architecture" "step" =
      "Here is a diagram of the architecture" ∧
    containsSubstr "Here is a diagram of the architecture" "## Generated Images" = false :=
  ⟨by decide, by decide, by decide⟩

/-- C6 (amended): on an image-trigger match with image generation enabled,
the trigger calls the asset subroutine and appends a "## Generated Images"
section with one markdown reference per returned path, but only when the
subroutine returns at least one path; with zero paths the text is
unchanged. -/
theorem image_trigger_appends_iff_assets (response stepName : String) (eV : Bool)
    (genImages genVideos : Generator)
    (himg : shouldGenerateImages response = true)
    (hvid : shouldGenerateVideos response = false) :
    handleGenerationRequests true eV genImages genVideos response stepName =
      (if (genImages response stepName).isEmpty then response
       else (genImages response stepName).foldl
         (fun acc p => acc ++ "![Generated Image](" ++ p ++ ")\n")
         (response ++ "\n\n## Generated Images\n")) ∧
    ((genImages response stepName).isEmpty = false →
      containsSubstr
        (handleGenerationRequests true eV genImages genVideos response stepName)
        "## Generated Images" = true) := by
  have hmain : handleGenerationRequests true eV genImages genVideos response stepName =
      (if (genImages response stepName).isEmpty then response
       else (genImages response stepName).foldl
         (fun acc p => acc ++ "![Generated Image](" ++ p ++ ")\n")
         (response ++ "\n\n## Generated Images\n")) := by
    simp [handleGenerationRequests, himg, hvid]
  refine ⟨hmain, ?_⟩
  intro hne
  rw [hmain, if_neg (by rw [hne]; exact Bool.false_ne_true)]
  rcases foldl_markdown_extract "![Generated Image](" ")\n" (genImages response stepName)
    (response ++ "\n\n## Generated Images\n") with ⟨t, ht⟩
  rw [ht]
  apply containsSubstr_of_infix
  refine ⟨(response ++ "\n\n").data, ("\n" ++ t).data, ?_⟩
  have hsplit : ("\n\n## Generated Images\n" : String) =
      "\n\n" ++ "## Generated Images" ++ "\n" := rfl
  simp [hsplit, String.data_append, List.append_assoc]

/-- C6 witness: with a subroutine producing one path, the trigger appends
the section and a markdown reference for it. -/
theorem image_trigger_appends_iff_assets_witness :
    handleGenerationRequests true true (fun _ _ => ["generated_assets/step/im.png"])
        generateVideosFromResponse "Here is a diagram of the architecture" "step" =
      (if ((fun (_ _ : String) => ["generated_assets/step/im.png"])
            "Here is a diagram of the architecture" "step").isEmpty then
        "Here is a diagram of the architecture"
       else ((fun (_ _ : String) => ["generated_assets/step/im.png"])
            "Here is a diagram of the architecture" "step").foldl
         (fun acc p => acc ++ "![Generated Image](" ++ p ++ ")\n")
         ("Here is a diagram of the architecture" ++ "\n\n## Generated Images\n")) ∧
    containsSubstr
      (handleGenerationRequests true true (fun _ _ => ["generated_assets/step/im.png"])
        generateVideosFromResponse "Here is a diagram of the architecture" "step")
      "## Generated Images" = true := by
  have h := image_trigger_appends_iff_assets "Here is a diagram of the architecture"
    "step" true (fun _ _ => ["generated_assets/step/im.png"]) generateVideosFromResponse
    (by decide) (by decide)
  exact ⟨h.1, h.2 rfl⟩

/-- C1: whenever the provider invocation raises, `next` does not propagate
the exception: it returns the conversation extended by exactly one new
assistant turn whose text embeds the error and contains the substring
"Error", all original turns unchanged. -/
theorem next_provider_error_appends_fallback (fs : FileSys) (net : Net)
    (provider : Provider) (eI eV eMM : Bool) (modelName : String)
    (messages : List Message) (stepName : String) (usageLog : List UsageEntry)
    (gm : List GeminiMsg) (e : String)
    (hconv : convertMessagesToGemini fs net messages = some gm)
    (hfail : provider (selectModel messages eMM modelName) gm = .error e) :
    geminiNext fs net provider eI eV eMM modelName messages none stepName usageLog =
      some (messages ++ [Message.ai (fallbackResponse e)], usageLog) ∧
    containsSubstr (fallbackResponse e) "Error" = true := by
  constructor
  · simp [geminiNext, hconv, hfail]
  · apply containsSubstr_of_infix
    refine ⟨[], (" with Gemini API: " ++ e ++ ". Please try again.").data, ?_⟩
    have hsplit : ("Error with Gemini API: " : String) =
        "Error" ++ " with Gemini API: " := rfl
    simp [fallbackResponse, hsplit, String.data_append, List.append_assoc]

/-- C1 witness: the spec's end-to-end scenario — a two-turn conversation
and an unavailable model — yields a three-turn conversation whose third
turn is an assistant turn containing "Error", the first two unchanged. -/
theorem next_provider_error_witness :
    geminiNext fsNone netNone failingProvider true true true "gemini-1.5-pro"
        [Message.system "You write code", Message.human (Content.str "Create a calculator")]
        none "gen_code" [] =
      some ([Message.system "You write code",
             Message.human (Content.str "Create a calculator"),
             Message.ai (fallbackResponse "model unavailable")], []) ∧
    containsSubstr (fallbackResponse "model unavailable") "Error" = true :=
  next_provider_error_appends_fallback fsNone netNone failingProvider true true true
    "gemini-1.5-pro"
    [Message.system "You write code", Message.human (Content.str "Create a calculator")]
    "gen_code" [] _ "model unavailable" rfl rfl

/-- C8: with translation succeeded, a failed provider invocation leaves the
usage ledger exactly as it was, and only a successful invocation appends
(exactly one) usage entry. -/
theorem usage_log_updated_only_on_success (fs : FileSys) (net : Net)
    (provider : Provider) (eI eV eMM : Bool) (modelName : String)
    (messages : List Message) (stepName : String) (usageLog : List UsageEntry)
    (gm : List GeminiMsg)
    (hconv : convertMessagesToGemini fs net messages = some gm) :
    (∀ e, provider (selectModel messages eMM modelName) gm = .error e →
      (geminiNext fs net provider eI eV eMM modelName messages none stepName
        usageLog).map Prod.snd = some usageLog) ∧
    (∀ t, provider (selectModel messages eMM modelName) gm = .ok t →
      (geminiNext fs net provider eI eV eMM modelName messages none stepName
        usageLog).map Prod.snd =
        some (usageLog ++ [⟨stepName, messages,
          handleGenerationRequests eI eV generateImagesFromResponse
            generateVideosFromResponse t stepName⟩])) := by
  constructor <;> intro x hx <;> simp [geminiNext, hconv, hx]

/-- C8 witness: a failing call leaves a one-entry ledger untouched; a
succeeding call appends exactly one entry to it. -/
theorem usage_log_witness :
    (geminiNext fsNone netNone failingProvider true true true "gemini-1.5-pro"
        [Message.human (Content.str "Hi")] none "step"
        [⟨"prev", [], "old"⟩]).map Prod.snd = some [⟨"prev", [], "old"⟩] ∧
    (geminiNext fsNone netNone okProvider true true true "gemini-1.5-pro"
        [Message.human (Content.str "Hi")] none "step"
        [⟨"prev", [], "old"⟩]).map Prod.snd =
      some ([⟨"prev", [], "old"⟩] ++ [⟨"step", [Message.human (Content.str "Hi")],
        handleGenerationRequests true true generateImagesFromResponse
          generateVideosFromResponse "All done" "step"⟩]) :=
  ⟨(usage_log_updated_only_on_success fsNone netNone failingProvider true true true
      "gemini-1.5-pro" [Message.human (Content.str "Hi")] "step"
      [⟨"prev", [], "old"⟩] _ rfl).1 "model unavailable" rfl,
   (usage_log_updated_only_on_success fsNone netNone okProvider true true true
      "gemini-1.5-pro" [Message.human (Content.str "Hi")] "step"
      [⟨"prev", [], "old"⟩] _ rfl).2 "All done" rfl⟩

/-- Finding the first system turn's content agrees with filtering the
system turns and taking the head. -/
lemma findSome?_systemContent_eq (l : List Message) :
    l.findSome? systemContent =
      (match l.filter isSystemMsg with
       | [] => none
       | m :: _ => systemContent m) := by
  induction l with
  | nil => rfl
  | cons m ms ih =>
    cases m with
    | system s => simp [List.findSome?, systemContent, List.filter, isSystemMsg]
    | human c => simpa [List.findSome?, systemContent, List.filter, isSystemMsg] using ih
    | ai s => simpa [List.findSome?, systemContent, List.filter, isSystemMsg] using ih

/-- When the first user entry's first part is a plain string, the
system-folding step succeeds, prepends onto exactly that part, and keeps
every role (hence every entry count) unchanged. -/
lemma prepend_first_user_str (sys t : String) (rest : List Part) :
    ∀ l : List GeminiMsg,
      firstUserParts l = some (Part.str t :: rest) →
      ∃ l2, prependSystemToFirstUser sys l = some l2 ∧
        firstUserParts l2 = some (Part.str (sys ++ t) :: rest) ∧
        l2.map GeminiMsg.role = l.map GeminiMsg.role := by
  intro l
  induction l with
  | nil => intro h; simp [firstUserParts] at h
  | cons m ms ih =>
    intro h
    by_cases hrole : m.role == "user"
    · have hparts : m.parts = Part.str t :: rest := by
        simpa [firstUserParts, List.find?, hrole] using h
      refine ⟨{ role := m.role, parts := Part.str (sys ++ t) :: rest } :: ms, ?_, ?_, ?_⟩
      · simp [prependSystemToFirstUser, hrole, hparts]
      · simp [firstUserParts, List.find?, hrole]
      · simp
    · have h2 : firstUserParts ms = some (Part.str t :: rest) := by
        simpa [firstUserParts, List.find?, hrole] using h
      rcases ih h2 with ⟨ms2, hp, hf, hr⟩
      refine ⟨m :: ms2, ?_, ?_, ?_⟩
      · simp [prependSystemToFirstUser, hrole, hp]
      · simpa [firstUserParts, List.find?, hrole] using hf
      · simp [hr]

/-- Every entry produced by the main translation pass carries the "user" or
the "model" role. -/
lemma base_roles (fs : FileSys) (net : Net) (messages : List Message) :
    ∀ g ∈ messages.filterMap (msgToGemini fs net),
      g.role = "user" ∨ g.role = "model" := by
  intro g hg
  rcases List.mem_filterMap.mp hg with ⟨m, _, hconv⟩
  cases m with
  | system s => simp [msgToGemini] at hconv
  | human c =>
    simp only [msgToGemini, Option.some_inj] at hconv
    rw [← hconv]
    exact Or.inl rfl
  | ai s =>
    simp only [msgToGemini, Option.some_inj] at hconv
    rw [← hconv]
    exact Or.inr rfl

/-- C2 counterexample: a conversation with exactly one system turn and one
user turn whose content is a structured record with only images — the
translation yields a user entry whose single part is the media placeholder
dict, and NO part of the output has the "System: " text prepended (the
source mutates `parts[0]` only when it is a plain string). -/
theorem translate_media_first_part_no_prepend :
    convertMessagesToGemini fsNone netNone
        [Message.system "s", Message.human (Content.dict ⟨none, some ["a.png"], none⟩)] =
      some [⟨"user", [Part.textDict "[Image: a.png]"]⟩] ∧
    ([(⟨"user", [Part.textDict "[Image: a.png]"]⟩ : GeminiMsg)].all
        (fun g => g.parts.all (fun p => !(partMentionsSystem p)))) = true :=
  ⟨rfl, rfl⟩

/-- C2 (amended): for a conversation with exactly one system turn (text S)
and at least one user turn, provided the first translated user turn's first
part is a plain text part, the translation prepends
"System: S\n\nUser: " to that part and the output contains only "user" and
"model" role entries. -/
theorem translate_prepends_system_to_text_head (fs : FileSys) (net : Net)
    (messages : List Message) (S t : String) (rest : List Part)
    (hsys : messages.filter isSystemMsg = [Message.system S])
    (hfu : firstUserParts (messages.filterMap (msgToGemini fs net)) =
      some (Part.str t :: rest)) :
    ∃ gms, convertMessagesToGemini fs net messages = some gms ∧
      firstUserParts gms = some (Part.str ("System: " ++ S ++ "\n\nUser: " ++ t) :: rest) ∧
      ∀ g ∈ gms, g.role = "user" ∨ g.role = "model" := by
  have hfind : messages.findSome? systemContent = some S := by
    rw [findSome?_systemContent_eq, hsys]
    rfl
  have hne : (messages.filterMap (msgToGemini fs net)).isEmpty = false := by
    cases hl : messages.filterMap (msgToGemini fs net) with
    | nil => rw [hl] at hfu; simp [firstUserParts] at hfu
    | cons a l => rfl
  rcases prepend_first_user_str ("System: " ++ S ++ "\n\nUser: ") t rest _ hfu with
    ⟨l2, hp, hf, hr⟩
  refine ⟨l2, ?_, hf, ?_⟩
  · simp [convertMessagesToGemini, hfind, hne, hp]
  · intro g hg
    have hmem : g.role ∈ l2.map GeminiMsg.role := List.mem_map_of_mem _ hg
    rw [hr] at hmem
    rcases List.mem_map.mp hmem with ⟨g2, hg2, hrole⟩
    rcases base_roles fs net messages g2 hg2 with h | h
    · exact Or.inl (by rw [← hrole, h])
    · exact Or.inr (by rw [← hrole, h])

/-- C2 witness: the translation of [System "You write code", User "Hi"]
is a single user entry whose one part carries the folded system prefix. -/
theorem translate_prepends_system_witness :
    ∃ gms, convertMessagesToGemini fsNone netNone
        [Message.system "You write code", Message.human (Content.str "Hi")] = some gms ∧
      firstUserParts gms =
        some (Part.str ("System: " ++ "You write code" ++ "\n\nUser: " ++ "Hi") :: []) ∧
      ∀ g ∈ gms, g.role = "user" ∨ g.role = "model" :=
  translate_prepends_system_to_text_head fsNone netNone
    [Message.system "You write code", Message.human (Content.str "Hi")]
    "You write code" "Hi" [] rfl rfl

end Ananta
